import Mathlib

/-!
# Shallow embedding of the watchmaker room-session engine

Definitions are translated from `src/server/routes.ts` (the vote-submission
handler, `calculateResults`, the WebSocket connection registry and the
room-code generation loop), from `src/unnamed/part_002` (the bounded
`generateRoomCode` helper with its `try/catch` fallback) and from
`src/server/storage.ts` together with `src/migrations/0000_lying_quasar.sql`
(the storage layer, modelled as in-memory tables; the `votes` table carries
no uniqueness constraint, so inserts never reject duplicates).

JavaScript `Array.prototype.sort` is stable (ECMA-262), so with the
comparator `(a, b) => b.totalScore - a.totalScore` its observable output is
uniquely determined: the stable descending order computed here by `sortDesc`.
-/

namespace Watchmaker

/-- A catalog item (an entry of `room.recommendations`); only its `id` field
is inspected by the engine. -/
structure Movie where
  id : Int
  deriving DecidableEq

/-- A row of the `votes` table.  The migrations define no uniqueness
constraint over (room_id, user_id, movie_id). -/
structure VoteRec where
  roomId : Int
  userId : Int
  movieId : Int
  score : Int
  deriving DecidableEq

/-- A row of the `room_participants` table. -/
structure Participant where
  roomId : Int
  userId : Int
  deriving DecidableEq

/-- One `{userId, score}` entry of a result's vote-detail list. -/
structure VoteDetail where
  userId : Int
  score : Int
  deriving DecidableEq

/-- One value of the `movieScores` map inside `calculateResults`. -/
structure MovieScore where
  movie : Movie
  totalScore : Int
  votes : List VoteDetail
  deriving DecidableEq

/-- One entry of the final array returned by `calculateResults` (the fields
the engine computes; presentation-only fields such as title and poster are
copied verbatim from the movie and are omitted). -/
structure ResultEntry where
  movieId : Int
  totalScore : Int
  votes : List VoteDetail
  deriving DecidableEq

/-- The initialization pass of `calculateResults`: `movieScores.set(movie.id,
{movie, totalScore: 0, votes: []})` for each recommendation.  A JavaScript
`Map` keeps the first insertion position of a key and overwrites its value,
which the fold reproduces on the association list. -/
def initStep (acc : List MovieScore) (movie : Movie) : List MovieScore :=
  if acc.any (fun e => e.movie.id == movie.id) then
    acc.map (fun e => if e.movie.id == movie.id then ⟨movie, 0, []⟩ else e)
  else
    acc ++ [⟨movie, 0, []⟩]

/-- The accumulator after the initialization pass over the whole
recommendation list. -/
def initScores (recommendations : List Movie) : List MovieScore :=
  recommendations.foldl initStep []

/-- The per-vote pass of `calculateResults`: `movieScores.get(vote.movieId)`
followed by the in-place score and detail update; a vote whose `movieId` is
not a key of the map is ignored.  Keys of the accumulator are unique, so the
pointwise map touches at most the one matching entry. -/
def applyVote (acc : List MovieScore) (v : VoteRec) : List MovieScore :=
  acc.map (fun e =>
    if e.movie.id == v.movieId then
      ⟨e.movie, e.totalScore + v.score, e.votes ++ [⟨v.userId, v.score⟩]⟩
    else e)

/-- The accumulated `movieScores.values()` list, in `Map` insertion order. -/
def scoreList (votes : List VoteRec) (recommendations : List Movie) : List MovieScore :=
  votes.foldl applyVote (initScores recommendations)

/-- Insertion into a descending run, placing `x` before the first entry whose
total does not exceed `x`'s: the position the stable JavaScript sort with
comparator `(a, b) => b.totalScore - a.totalScore` assigns to an element
originally in front of the run. -/
def insertDesc (x : MovieScore) : List MovieScore → List MovieScore
  | [] => [x]
  | y :: ys => if y.totalScore ≤ x.totalScore then x :: y :: ys else y :: insertDesc x ys

/-- Stable descending sort by `totalScore`: the observable behaviour of
`.sort((a, b) => b.totalScore - a.totalScore)` under ECMA-262 stability. -/
def sortDesc : List MovieScore → List MovieScore
  | [] => []
  | x :: xs => insertDesc x (sortDesc xs)

/-- The `calculateResults` function of `src/server/routes.ts` (identical in
every duplicated copy): initialize, accumulate, sort descending, project. -/
def calculateResults (votes : List VoteRec) (recommendations : List Movie) : List ResultEntry :=
  (sortDesc (scoreList votes recommendations)).map (fun e => ⟨e.movie.id, e.totalScore, e.votes⟩)

/-- In-memory model of the Supabase tables reached through
`SupabaseStorage`. -/
structure Room where
  id : Int
  code : String
  hostId : Int
  status : String
  recommendations : List Movie
  results : List ResultEntry
  deriving DecidableEq

/-- The storage state: the three tables the vote path touches. -/
structure Store where
  rooms : List Room
  participants : List Participant
  votes : List VoteRec
  deriving DecidableEq

/-- `SupabaseStorage.getRoomByCode`: select a room by its unique code. -/
def getRoomByCode (s : Store) (code : String) : Option Room :=
  s.rooms.find? (fun r => r.code == code)

/-- `SupabaseStorage.createVote`: a bare insert into `votes`.  The table has
no (room_id, user_id, movie_id) uniqueness constraint, so the insert
succeeds and returns the row even when an identical vote already exists. -/
def createVote (s : Store) (v : VoteRec) : Store × Option VoteRec :=
  ({ s with votes := s.votes ++ [v] }, some v)

/-- `SupabaseStorage.getRoomParticipants`. -/
def getRoomParticipants (s : Store) (roomId : Int) : List Participant :=
  s.participants.filter (fun p => p.roomId == roomId)

/-- `SupabaseStorage.getRoomVotes`. -/
def getRoomVotes (s : Store) (roomId : Int) : List VoteRec :=
  s.votes.filter (fun v => v.roomId == roomId)

/-- `SupabaseStorage.updateRoomResults`. -/
def updateRoomResults (s : Store) (roomId : Int) (results : List ResultEntry) : Store :=
  { s with rooms := s.rooms.map (fun r => if r.id == roomId then { r with results := results } else r) }

/-- `SupabaseStorage.updateRoomStatus`. -/
def updateRoomStatus (s : Store) (roomId : Int) (status : String) : Store :=
  { s with rooms := s.rooms.map (fun r => if r.id == roomId then { r with status := status } else r) }

/-- A WebSocket broadcast issued by the vote handler, in issue order. -/
inductive Event
  | votingCompleted (roomCode : String) (results : List ResultEntry)
  | voteCast (roomCode : String) (userId movieId score : Int)
  deriving DecidableEq

/-- Whether an event is the `voting-completed` broadcast. -/
def Event.isCompletion : Event → Bool
  | .votingCompleted _ _ => true
  | .voteCast _ _ _ _ => false

/-- The request body of `POST /api/votes`: the vote columns parsed by
`insertVoteSchema` plus the `roomCode` used for the lookup. -/
structure VoteRequest where
  roomId : Int
  userId : Int
  movieId : Int
  score : Int
  roomCode : String
  deriving DecidableEq

/-- The vote row built from the request by `insertVoteSchema.parse`. -/
def voteRecOf (req : VoteRequest) : VoteRec :=
  ⟨req.roomId, req.userId, req.movieId, req.score⟩

/-- The store after `storage.createVote(voteData)` has run. -/
def insertVoteStore (s : Store) (req : VoteRequest) : Store :=
  (createVote s (voteRecOf req)).1

/-- Outcome of one `POST /api/votes` request: the new storage state, the
broadcasts in issue order, and the HTTP payload (`some vote` is the 200/201
response with the created row). -/
structure HandlerResult where
  store : Store
  events : List Event
  response : Option VoteRec
  deriving DecidableEq

/-- The `POST /api/votes` handler of `src/server/routes.ts`: insert the vote,
look the room up by the code from the body, and when found compare the room's
vote count against `participants.length * recommendations.length`; at or
above the threshold it recomputes results, overwrites the room's results and
status, and broadcasts `voting-completed` before the `vote-cast` broadcast.
No room-status check and no duplicate check occur anywhere on the path. -/
def postVote (s : Store) (req : VoteRequest) : HandlerResult :=
  let voteData := voteRecOf req
  let s1 := insertVoteStore s req
  match getRoomByCode s1 req.roomCode with
  | none => ⟨s1, [], some voteData⟩
  | some room =>
    let participants := getRoomParticipants s1 room.id
    let allVotes := getRoomVotes s1 room.id
    let recommendations := room.recommendations
    let expectedVotes := participants.length * recommendations.length
    if expectedVotes ≤ allVotes.length then
      let results := calculateResults allVotes recommendations
      let s3 := updateRoomStatus (updateRoomResults s1 room.id results) room.id "completed"
      ⟨s3, [.votingCompleted room.code results,
            .voteCast room.code req.userId req.movieId req.score], some voteData⟩
    else
      ⟨s1, [.voteCast room.code req.userId req.movieId req.score], some voteData⟩

/-- The fixed alphabet `'ABCDEFGHIJKLMNOPQRSTUVWXYZ0123456789'` used by the
room-code generation. -/
def roomCodeChars : List Char := "ABCDEFGHIJKLMNOPQRSTUVWXYZ0123456789".toList

/-- One candidate room code: 8 successive characters
`chars.charAt(Math.floor(Math.random() * chars.length))`.  `rand k` models
the k-th call to the random index draw, always a valid index below 36. -/
def makeCode (rand : Nat → Fin 36) (attempt : Nat) : String :=
  String.mk ((List.range 8).map (fun j => roomCodeChars.getD (rand (8 * attempt + j)).val 'A'))

/-- Observable state of a code-generation run after a given number of loop
iterations: a returned code, the thrown give-up error of
`src/unnamed/part_002` (`Failed to generate a unique room code after
multiple attempts`), or a loop that has not produced an answer yet. -/
inductive GenOutcome
  | ok (code : String)
  | exhausted
  | stillRunning
  deriving DecidableEq

/-- Outcome of one `storage.getRoomByCode` existence check: an existing room
was found, no room was found, or the call threw (a transient storage
failure). -/
inductive CheckResult
  | found
  | notFound
  | failure
  deriving DecidableEq

/-- The inline code-generation loop of `POST /api/rooms` in
`src/server/routes.ts`: `do { code = generateRoomCode(); existing = await
storage.getRoomByCode(code); } while (existing)`.  The loop carries no
attempt bound, so it is modelled with explicit fuel counting iterations;
`stillRunning` means the loop is still going after that many iterations.
`taken` answers the existence check (the loop has no error handling of its
own, so checks are assumed to succeed). -/
def roomCodeLoopAux (taken : String → Bool) (rand : Nat → Fin 36) : Nat → Nat → GenOutcome
  | _, 0 => .stillRunning
  | attempt, fuel + 1 =>
    let code := makeCode rand attempt
    if taken code then roomCodeLoopAux taken rand (attempt + 1) fuel else .ok code

/-- The `routes.ts` loop started at its first iteration. -/
def roomCodeLoop (taken : String → Bool) (rand : Nat → Fin 36) (fuel : Nat) : GenOutcome :=
  roomCodeLoopAux taken rand 0 fuel

/-- The body of `generateRoomCode` from `src/unnamed/part_002`: while
`attempts < MAX_ATTEMPTS` draw a code and check it; a collision retries, an
absent room returns the code, and a thrown check — the `catch` branch —
returns the just-drawn, unchecked code.  After `MAX_ATTEMPTS` collisions the
function throws (`exhausted`).  The first argument counts down the remaining
attempts, the second is the index of the current attempt. -/
def generateRoomCodeAux (check : String → CheckResult) (rand : Nat → Fin 36) :
    Nat → Nat → GenOutcome
  | 0, _ => .exhausted
  | remaining + 1, attempt =>
    let result := makeCode rand attempt
    match check result with
    | .found => generateRoomCodeAux check rand remaining (attempt + 1)
    | .notFound => .ok result
    | .failure => .ok result

/-- `generateRoomCode` of `src/unnamed/part_002` with `MAX_ATTEMPTS = 10`. -/
def generateRoomCode (check : String → CheckResult) (rand : Nat → Fin 36) : GenOutcome :=
  generateRoomCodeAux check rand 10 0

/-- An operation observable at the connection registry of
`src/server/routes.ts`: a `join-room` message registering a connection, the
`close` event of a connection, or a broadcast to a room.  Connections are
identified by numbers. -/
inductive RegOp
  | joinRoom (conn : Nat) (roomCode : String)
  | closeConn (conn : Nat)
  | broadcast (roomCode : String)
  deriving DecidableEq

/-- State around the global `wsConnections` map: the room-code → connection
set association (sets as duplicate-free lists), each connection's
`currentRoomCode` variable (most recent `join-room` first), and the set of
connections whose close event has fired. -/
structure RegState where
  wsConnections : List (String × List Nat)
  currentRoom : List (Nat × String)
  closedConns : List Nat
  deriving DecidableEq

/-- The registry at server start: an empty map. -/
def emptyReg : RegState := ⟨[], [], []⟩

/-- JavaScript `Set.prototype.add`: append unless already present. -/
def setAdd (conns : List Nat) (c : Nat) : List Nat :=
  if conns.contains c then conns else conns ++ [c]

/-- The `join-room` branch of the message handler: create the room's set if
absent, add the connection to it, and remember the code as the connection's
`currentRoomCode` (overwriting any earlier one). -/
def regJoin (st : RegState) (c : Nat) (code : String) : RegState :=
  let wsConnections :=
    if st.wsConnections.any (fun p => p.1 == code) then
      st.wsConnections.map (fun p => if p.1 == code then (p.1, setAdd p.2 c) else p)
    else
      st.wsConnections ++ [(code, setAdd [] c)]
  { st with wsConnections := wsConnections, currentRoom := (c, code) :: st.currentRoom }

/-- The `close` handler: if the connection has a `currentRoomCode`, delete it
from that room's set and delete the room's entry when the set became empty.
The connection is recorded as closed either way. -/
def regClose (st : RegState) (c : Nat) : RegState :=
  match st.currentRoom.find? (fun q => q.1 == c) with
  | none => { st with closedConns := c :: st.closedConns }
  | some q =>
    let wsConnections := st.wsConnections.filterMap (fun p =>
      if p.1 == q.2 then
        (let conns := p.2.erase c
         if conns.isEmpty then none else some (p.1, conns))
      else some p)
    { st with wsConnections := wsConnections, closedConns := c :: st.closedConns }

/-- One registry operation.  `broadcastToRoom` iterates over a room's set,
skipping closed sockets, and never mutates the map. -/
def regStep (st : RegState) : RegOp → RegState
  | .joinRoom c code => regJoin st c code
  | .closeConn c => regClose st c
  | .broadcast _ => st

/-- The registry reached from server start by a sequence of operations. -/
def runRegOps (ops : List RegOp) : RegState := ops.foldl regStep emptyReg

/-- Whether every room entry of the registry holds a non-empty set. -/
def registryNonempty (st : RegState) : Bool :=
  st.wsConnections.all (fun p => !p.2.isEmpty)

/-- The number of rooms having at least one live (not closed) registered
connection. -/
def roomsWithLiveConn (st : RegState) : Nat :=
  (st.wsConnections.filter (fun p => p.2.any (fun c => !st.closedConns.contains c))).length

/-- The aggregation example's candidate list: A, B, C as ids 1, 2, 3. -/
def exRecs : List Movie := [⟨1⟩, ⟨2⟩, ⟨3⟩]

/-- The aggregation example's votes, room 9, users 1 and 2:
user1 A=2, user1 B=-1, user2 A=1, user2 B=1, user2 C=-2. -/
def exVotes : List VoteRec :=
  [⟨9, 1, 1, 2⟩, ⟨9, 1, 2, -1⟩, ⟨9, 2, 1, 1⟩, ⟨9, 2, 2, 1⟩, ⟨9, 2, 3, -2⟩]

/-- A one-participant, one-candidate room in `voting` status. -/
def exRoom : Room := ⟨1, "ROOMCODE", 10, "voting", [⟨100⟩], []⟩

/-- A store holding `exRoom`, its sole participant, and no votes yet. -/
def exStore : Store := ⟨[exRoom], [⟨1, 10⟩], []⟩

/-- The single participant's vote on the single candidate. -/
def exReq : VoteRequest := ⟨1, 10, 100, 2, "ROOMCODE"⟩

/-- A waiting-status variant of `exRoom` (voting has not started). -/
def exRoomWaiting : Room := ⟨1, "ROOMCODE", 10, "waiting", [⟨100⟩], []⟩

/-- A store whose only room is still `waiting`. -/
def exStoreWaiting : Store := ⟨[exRoomWaiting], [⟨1, 10⟩], []⟩

/-- The vote of `exReq` as a stored row. -/
def exVote : VoteRec := ⟨1, 10, 100, 2⟩

/-- The store of `exStore` after `exVote` has already been recorded. -/
def exStoreVoted : Store := ⟨[exRoom], [⟨1, 10⟩], [exVote]⟩

/-- C5: the aggregation example's expected ranked outcome: A with total 3
(details user1 then user2), B with total 0, C with total -2. -/
def exExpected : List ResultEntry :=
  [⟨1, 3, [⟨1, 2⟩, ⟨2, 1⟩]⟩, ⟨2, 0, [⟨1, -1⟩, ⟨2, 1⟩]⟩, ⟨3, -2, [⟨2, -2⟩]⟩]

/-!  Theorems.  Each claim of the specification is settled below; helper
lemmas carry the inductive arguments. -/

/-- C5: `calculateResults` starts every candidate at score 0 with an empty
detail list, ignores votes whose candidate is not in the list, sums the
remaining scores and appends the `{userId, score}` details in arrival order,
and ranks by descending total; on candidates [A, B, C] (ids 1, 2, 3) with
votes user1:A=2, user1:B=-1, user2:A=1, user2:B=1, user2:C=-2 the output is
A=3, B=0, C=-2, and an extra vote for the unknown candidate 99 changes
nothing. -/
theorem calculateResults_example :
    calculateResults [] exRecs = [⟨1, 0, []⟩, ⟨2, 0, []⟩, ⟨3, 0, []⟩] ∧
    calculateResults exVotes exRecs = exExpected ∧
    calculateResults (exVotes ++ [⟨9, 1, 99, 5⟩]) exRecs = exExpected := by
  refine ⟨rfl, rfl, rfl⟩

/-- C1 (failing input): with one participant and one candidate, two
successive vote submissions to the same room each traverse the completion
path, so `voting-completed` is broadcast twice for the room — the handler
re-enters completion on every vote at or past the threshold instead of
running it exactly once. -/
theorem postVote_double_completion :
    ((postVote exStore exReq).events ++
      (postVote (postVote exStore exReq).store exReq).events).countP Event.isCompletion = 2 := by
  rfl

/-- C2 (failing input): `createVote` performs no duplicate check — inserting
a vote identical to an already-recorded (roomId, userId, candidateId) vote
succeeds, returns the row, and leaves the store holding the vote twice. -/
theorem createVote_accepts_duplicate :
    (createVote exStoreVoted exVote).2 = some exVote ∧
    ((createVote exStoreVoted exVote).1.votes.countP (fun v => v == exVote)) = 2 := by
  refine ⟨rfl, rfl⟩

/-- C8 (failing input): when the existence check throws on the first
attempt, `generateRoomCode` of `src/unnamed/part_002` returns the just-drawn
candidate code without any check — it neither retries nor surfaces the
failure. -/
theorem generateRoomCode_failure_returns_unchecked :
    generateRoomCode (fun _ => .failure) (fun _ => 0) = .ok (makeCode (fun _ => 0) 0) := by
  rfl

/-- C7 (counterexample): the inline room-code loop of `POST /api/rooms` in
`src/server/routes.ts` has no attempt bound: with every code taken it is
still iterating after 50 attempts, neither returning nor failing with the
give-up error the claim requires by attempt 10. -/
theorem roomCodeLoop_not_bounded :
    roomCodeLoop (fun _ => true) (fun _ => 0) 50 = GenOutcome.stillRunning := by
  rfl

/-- C9 (counterexample): a connection that joins room A, then room B, then
closes is removed only from B (its latest `currentRoomCode`), so room A's
entry survives holding only the closed connection: the registry keeps one
entry while zero rooms have a live connection, refuting the claimed bound by
rooms with at least one live connection. -/
theorem registry_live_bound_fails :
    ¬ ((runRegOps [RegOp.joinRoom 1 "A", RegOp.joinRoom 1 "B", RegOp.closeConn 1]).wsConnections.length ≤
        roomsWithLiveConn (runRegOps [RegOp.joinRoom 1 "A", RegOp.joinRoom 1 "B", RegOp.closeConn 1])) := by
  decide

/-- C3 (counterexample): a vote submission naming a nonexistent room is not
rejected with any room-not-found failure — the vote is recorded and the
created row is returned — and a submission to a room still in `waiting`
status is likewise recorded without any invalid-transition failure (it even
reaches the completion path). -/
theorem postVote_no_validation :
    (postVote ⟨[], [], []⟩ ⟨1, 10, 100, 2, "NOROOM"⟩).response = some ⟨1, 10, 100, 2⟩ ∧
    (postVote ⟨[], [], []⟩ ⟨1, 10, 100, 2, "NOROOM"⟩).store.votes = [⟨1, 10, 100, 2⟩] ∧
    (postVote exStoreWaiting exReq).response = some (voteRecOf exReq) ∧
    (postVote exStoreWaiting exReq).store.votes = [voteRecOf exReq] ∧
    (postVote exStoreWaiting exReq).events.countP Event.isCompletion = 1 := by
  refine ⟨rfl, rfl, rfl, rfl, rfl⟩

/-- Stability of a single descending insertion: elements skipped over by the
inserted element have strictly larger totals, so for any fixed total the
filtered subsequence is unchanged. -/
theorem filter_insertDesc (s : Int) (x : MovieScore) (l : List MovieScore) :
    (insertDesc x l).filter (fun e => e.totalScore == s) =
      (x :: l).filter (fun e => e.totalScore == s) := by
  induction l with
  | nil => rfl
  | cons y ys ih =>
    by_cases h : y.totalScore ≤ x.totalScore
    · simp only [insertDesc, if_pos h]
    · simp only [insertDesc, if_neg h]
      cases hx : (x.totalScore == s) with
      | true =>
        have hy : (y.totalScore == s) = false := by
          cases hy : (y.totalScore == s) with
          | false => rfl
          | true =>
            rw [beq_iff_eq] at hx hy
            exact absurd (le_of_eq (hy.trans hx.symm)) h
        simp [List.filter_cons, hx, hy, ih]
      | false =>
        simp [List.filter_cons, hx, ih]

/-- Stability of `sortDesc`: restricted to any one total score, the sorted
list coincides with the unsorted one. -/
theorem filter_sortDesc (s : Int) (l : List MovieScore) :
    (sortDesc l).filter (fun e => e.totalScore == s) =
      l.filter (fun e => e.totalScore == s) := by
  induction l with
  | nil => rfl
  | cons x xs ih =>
    simp only [sortDesc]
    rw [filter_insertDesc]
    simp [List.filter_cons, ih]

/-- The vote-accumulation pass never changes which candidate an accumulator
entry belongs to. -/
theorem map_id_applyVote (acc : List MovieScore) (v : VoteRec) :
    (applyVote acc v).map (fun e => e.movie.id) = acc.map (fun e => e.movie.id) := by
  unfold applyVote
  rw [List.map_map]
  apply List.map_congr_left
  intro e _
  by_cases h : e.movie.id = v.movieId <;> simp [h]

/-- The accumulated score list lists exactly the candidates the
initialization pass produced, in the same order. -/
theorem map_id_foldl_applyVote (votes : List VoteRec) :
    ∀ acc : List MovieScore,
      (votes.foldl applyVote acc).map (fun e => e.movie.id) =
        acc.map (fun e => e.movie.id) := by
  induction votes with
  | nil => intro acc; rfl
  | cons v vs ih =>
    intro acc
    rw [List.foldl_cons, ih, map_id_applyVote]

/-- The initialization pass emits candidate ids as an ordered subsequence of
the recommendation list's ids (first occurrence of each id, in list order). -/
theorem foldl_initStep_ids (recommendations : List Movie) :
    ∀ acc : List MovieScore,
      ((recommendations.foldl initStep acc).map (fun e => e.movie.id)).Sublist
        (acc.map (fun e => e.movie.id) ++ recommendations.map (fun m => m.id)) := by
  induction recommendations with
  | nil => intro acc; simp
  | cons m ms ih =>
    intro acc
    rw [List.foldl_cons]
    refine (ih (initStep acc m)).trans ?_
    by_cases h : (acc.any (fun e => e.movie.id == m.id)) = true
    · have hids : (initStep acc m).map (fun e => e.movie.id) =
          acc.map (fun e => e.movie.id) := by
        unfold initStep
        rw [if_pos h, List.map_map]
        apply List.map_congr_left
        intro e _
        by_cases he : e.movie.id = m.id <;> simp [he]
      rw [hids]
      simp only [List.map_cons]
      exact List.Sublist.append_left (List.sublist_cons_self _ _) _
    · have hids : (initStep acc m).map (fun e => e.movie.id) =
          acc.map (fun e => e.movie.id) ++ [m.id] := by
        unfold initStep
        rw [if_neg h]
        simp
      rw [hids, List.append_assoc]
      simp only [List.singleton_append, List.map_cons]
      exact List.Sublist.refl _

/-- The candidates surviving into the accumulated score list, in order, form
a subsequence of the recommendation list. -/
theorem scoreList_ids_sublist (votes : List VoteRec) (recommendations : List Movie) :
    ((scoreList votes recommendations).map (fun e => e.movie.id)).Sublist
      (recommendations.map (fun m => m.id)) := by
  unfold scoreList initScores
  rw [map_id_foldl_applyVote]
  simpa using foldl_initStep_ids recommendations []

/-- C6: the descending sort of `calculateResults` is stable with respect to
the candidate list: for any total score, the candidates attaining it appear
in the output as an ordered subsequence of the input candidate list, so two
equal-scoring candidates keep their original relative order. -/
theorem calculateResults_stable (votes : List VoteRec) (recommendations : List Movie) (s : Int) :
    (((calculateResults votes recommendations).filter
        (fun e => e.totalScore == s)).map (fun e => e.movieId)).Sublist
      (recommendations.map (fun m => m.id)) := by
  unfold calculateResults
  rw [List.filter_map, List.map_map]
  have hcomp : ((fun e : ResultEntry => e.totalScore == s) ∘
      (fun e : MovieScore => (⟨e.movie.id, e.totalScore, e.votes⟩ : ResultEntry))) =
      (fun e : MovieScore => e.totalScore == s) := rfl
  rw [hcomp, filter_sortDesc]
  exact (List.Sublist.map _ (List.filter_sublist _)).trans
    (scoreList_ids_sublist votes recommendations)

/-- Every candidate code is 8 characters long. -/
theorem makeCode_length (rand : Nat → Fin 36) (attempt : Nat) :
    (makeCode rand attempt).length = 8 := rfl

/-- Every character of a candidate code comes from the fixed alphabet. -/
theorem makeCode_chars (rand : Nat → Fin 36) (attempt : Nat) :
    ∀ ch ∈ (makeCode rand attempt).toList, ch ∈ roomCodeChars := by
  intro ch hch
  have hdata : (makeCode rand attempt).toList =
      (List.range 8).map (fun j => roomCodeChars.getD (rand (8 * attempt + j)).val 'A') := rfl
  rw [hdata] at hch
  obtain ⟨j, _, rfl⟩ := List.mem_map.mp hch
  have hlt : (rand (8 * attempt + j)).val < roomCodeChars.length := by
    have h36 : roomCodeChars.length = 36 := rfl
    rw [h36]
    exact (rand (8 * attempt + j)).isLt
  rw [List.getD_eq_getElem _ _ hlt]
  exact List.getElem_mem hlt

/-- The part_002 generator throws its give-up error exactly when every one
of its remaining attempts hits a collision. -/
theorem generateRoomCodeAux_exhausted_iff (check : String → CheckResult) (rand : Nat → Fin 36) :
    ∀ remaining attempt : Nat,
      (generateRoomCodeAux check rand remaining attempt = .exhausted ↔
        ∀ i, i < remaining → check (makeCode rand (attempt + i)) = .found) := by
  intro remaining
  induction remaining with
  | zero =>
    intro attempt
    simp [generateRoomCodeAux]
  | succ n ih =>
    intro attempt
    simp only [generateRoomCodeAux]
    cases hc : check (makeCode rand attempt) with
    | found =>
      rw [ih (attempt + 1)]
      constructor
      · intro hall i _
        cases i with
        | zero => simpa using hc
        | succ j =>
          have hj := hall j (by omega)
          rw [show attempt + 1 + j = attempt + (j + 1) by omega] at hj
          exact hj
      · intro hall i hi
        have hj := hall (i + 1) (by omega)
        rw [show attempt + (i + 1) = attempt + 1 + i by omega] at hj
        exact hj
    | notFound =>
      constructor
      · intro h
        exact absurd h (by simp)
      · intro hall
        have h0 := hall 0 (by omega)
        rw [Nat.add_zero, hc] at h0
        exact absurd h0 (by simp)
    | failure =>
      constructor
      · intro h
        exact absurd h (by simp)
      · intro hall
        have h0 := hall 0 (by omega)
        rw [Nat.add_zero, hc] at h0
        exact absurd h0 (by simp)

/-- Any code the part_002 generator returns was drawn during one of its
remaining attempts. -/
theorem generateRoomCodeAux_ok (check : String → CheckResult) (rand : Nat → Fin 36) :
    ∀ remaining attempt c,
      generateRoomCodeAux check rand remaining attempt = .ok c →
        ∃ i, i < remaining ∧ c = makeCode rand (attempt + i) := by
  intro remaining
  induction remaining with
  | zero =>
    intro attempt c h
    exact absurd h (by simp [generateRoomCodeAux])
  | succ n ih =>
    intro attempt c h
    simp only [generateRoomCodeAux] at h
    cases hc : check (makeCode rand attempt) with
    | found =>
      rw [hc] at h
      obtain ⟨i, hi, hce⟩ := ih (attempt + 1) c h
      refine ⟨i + 1, by omega, ?_⟩
      rw [hce]
      congr 1
      omega
    | notFound =>
      rw [hc] at h
      injection h with h'
      exact ⟨0, by omega, by rw [Nat.add_zero]; exact h'.symm⟩
    | failure =>
      rw [hc] at h
      injection h with h'
      exact ⟨0, by omega, by rw [Nat.add_zero]; exact h'.symm⟩

/-- The part_002 generator always answers within its remaining attempts. -/
theorem generateRoomCodeAux_ne_stillRunning (check : String → CheckResult) (rand : Nat → Fin 36) :
    ∀ remaining attempt,
      generateRoomCodeAux check rand remaining attempt ≠ .stillRunning := by
  intro remaining
  induction remaining with
  | zero =>
    intro attempt h
    exact GenOutcome.noConfusion h
  | succ n ih =>
    intro attempt h
    simp only [generateRoomCodeAux] at h
    cases hc : check (makeCode rand attempt) <;> rw [hc] at h
    · exact ih _ h
    · exact GenOutcome.noConfusion h
    · exact GenOutcome.noConfusion h

/-- C7 (amended): the `generateRoomCode` helper of `src/unnamed/part_002` is
bounded — it throws its give-up error exactly when all 10 attempts collide,
any code it returns is one of the first 10 draws, 8 characters long over the
fixed [A-Z0-9] alphabet, and it never runs past its attempt budget (the
inline do/while loop of `routes.ts` has no such bound, see
`roomCodeLoop_not_bounded`). -/
theorem generateRoomCode_bounded (check : String → CheckResult) (rand : Nat → Fin 36) :
    (generateRoomCode check rand = .exhausted ↔
      ∀ i, i < 10 → check (makeCode rand i) = .found) ∧
    (∀ c, generateRoomCode check rand = .ok c →
      (∃ i, i < 10 ∧ c = makeCode rand i) ∧ c.length = 8 ∧
        ∀ ch ∈ c.toList, ch ∈ roomCodeChars) ∧
    generateRoomCode check rand ≠ .stillRunning := by
  refine ⟨?_, ?_, ?_⟩
  · have h := generateRoomCodeAux_exhausted_iff check rand 10 0
    simpa [generateRoomCode] using h
  · intro c hc
    obtain ⟨i, hi, hce⟩ := generateRoomCodeAux_ok check rand 10 0 c hc
    rw [Nat.zero_add] at hce
    refine ⟨⟨i, hi, hce⟩, ?_, ?_⟩
    · rw [hce]
      exact makeCode_length rand i
    · rw [hce]
      exact makeCode_chars rand i
  · exact generateRoomCodeAux_ne_stillRunning check rand 10 0

/-- C7 witness: with every code already taken, the part_002 generator stops
with the give-up error. -/
theorem generateRoomCode_bounded_witness :
    generateRoomCode (fun _ => .found) (fun _ => 0) = .exhausted :=
  (generateRoomCode_bounded (fun _ => .found) (fun _ => 0)).1.mpr (fun _ _ => rfl)

/-- `Set.add` never produces an empty set. -/
theorem setAdd_ne_empty (conns : List Nat) (c : Nat) :
    (setAdd conns c).isEmpty = false := by
  unfold setAdd
  by_cases hc : conns.contains c = true
  · rw [if_pos hc]
    cases conns with
    | nil => simp at hc
    | cons a l => rfl
  · rw [if_neg hc]
    cases conns <;> rfl

/-- A `join-room` message preserves non-emptiness of every registry entry. -/
theorem registryNonempty_regJoin (st : RegState) (c : Nat) (code : String)
    (h : registryNonempty st = true) :
    registryNonempty (regJoin st c code) = true := by
  simp only [registryNonempty, List.all_eq_true] at h ⊢
  intro p hp
  simp only [regJoin] at hp
  by_cases hany : (st.wsConnections.any fun q => q.1 == code) = true
  · rw [if_pos hany] at hp
    obtain ⟨q, hq, hqe⟩ := List.mem_map.mp hp
    by_cases hqc : q.1 = code
    · rw [if_pos (by simpa using hqc)] at hqe
      rw [← hqe]
      simp only [Bool.not_eq_true']
      exact setAdd_ne_empty q.2 c
    · rw [if_neg (by simpa using hqc)] at hqe
      rw [← hqe]
      exact h q hq
  · rw [if_neg hany] at hp
    rcases List.mem_append.mp hp with hmem | hmem
    · exact h p hmem
    · have hpe : p = (code, setAdd [] c) := by simpa using hmem
      rw [hpe]
      simp only [Bool.not_eq_true']
      exact setAdd_ne_empty [] c

/-- A connection close preserves non-emptiness of every registry entry: the
handler deletes the whole entry whenever the deletion emptied its set. -/
theorem registryNonempty_regClose (st : RegState) (c : Nat)
    (h : registryNonempty st = true) :
    registryNonempty (regClose st c) = true := by
  simp only [registryNonempty, List.all_eq_true] at h ⊢
  intro p hp
  simp only [regClose] at hp
  cases hf : st.currentRoom.find? (fun q => q.1 == c) with
  | none =>
    rw [hf] at hp
    exact h p hp
  | some q =>
    rw [hf] at hp
    obtain ⟨r, hr, hfr⟩ := List.mem_filterMap.mp hp
    by_cases hrc : r.1 = q.2
    · rw [if_pos (by simpa using hrc)] at hfr
      cases he : (r.2.erase c).isEmpty with
      | true =>
        rw [he] at hfr
        simp at hfr
      | false =>
        rw [he, if_neg (by simp)] at hfr
        simp only [Option.some.injEq] at hfr
        rw [← hfr]
        show (!(r.2.erase c).isEmpty) = true
        rw [he]
        rfl
    · rw [if_neg (by simpa using hrc)] at hfr
      simp only [Option.some.injEq] at hfr
      rw [← hfr]
      exact h r hr

/-- A single registry operation preserves non-emptiness of every entry. -/
theorem registryNonempty_regStep (st : RegState) (op : RegOp)
    (h : registryNonempty st = true) :
    registryNonempty (regStep st op) = true := by
  cases op with
  | joinRoom c code => exact registryNonempty_regJoin st c code h
  | closeConn c => exact registryNonempty_regClose st c h
  | broadcast _ => exact h

/-- C9 (amended): after any sequence of register, close and broadcast
operations from server start, every room entry of the connection map holds a
non-empty set of registered connections — an entry whose set empties is
removed at once, so registry memory is bounded by the rooms holding at least
one registered connection (which, per `registry_live_bound_fails`, need not
be a live one). -/
theorem registryNonempty_runRegOps (ops : List RegOp) :
    registryNonempty (runRegOps ops) = true := by
  suffices h : ∀ st, registryNonempty st = true →
      registryNonempty (ops.foldl regStep st) = true by
    exact h emptyReg rfl
  induction ops with
  | nil =>
    intro st hst
    exact hst
  | cons op rest ih =>
    intro st hst
    exact ih (regStep st op) (registryNonempty_regStep st op hst)

/-- C3 (amended): the vote handler performs no validation of room existence
or status — it records the vote unconditionally before the room lookup and
responds with the created row in every case; the lookup by `roomCode` only
gates the completion check and the broadcasts, so a missing room merely
means no events are emitted. -/
theorem postVote_records_unconditionally (s : Store) (req : VoteRequest) :
    (postVote s req).response = some (voteRecOf req) ∧
    (postVote s req).store.votes = s.votes ++ [voteRecOf req] ∧
    (getRoomByCode s req.roomCode = none → (postVote s req).events = []) := by
  cases hcase : getRoomByCode (insertVoteStore s req) req.roomCode with
  | none =>
    simp only [postVote, hcase]
    exact ⟨trivial, rfl, fun _ => trivial⟩
  | some room =>
    simp only [postVote, hcase]
    refine ⟨?_, ?_, ?_⟩
    · split <;> rfl
    · split <;> rfl
    · intro hnone
      exact Option.noConfusion (hnone.symm.trans hcase)

/-- C3 witness: on a store without any room, the handler emits no events
(and, by the other conjuncts, still records the vote and answers 200). -/
theorem postVote_records_unconditionally_witness :
    (postVote ⟨[], [], []⟩ ⟨1, 10, 100, 2, "NOROOM"⟩).events = [] :=
  (postVote_records_unconditionally ⟨[], [], []⟩ ⟨1, 10, 100, 2, "NOROOM"⟩).2.2 rfl

/-- C4: when the room named by the request exists, the vote handler runs the
completion path — broadcasting `voting-completed` — exactly when the number
of votes recorded for the room after the insertion is at least the number of
participants times the number of candidates in the room's list. -/
theorem postVote_completion_iff (s : Store) (req : VoteRequest) (room : Room)
    (h : getRoomByCode s req.roomCode = some room) :
    ((postVote s req).events.any Event.isCompletion = true ↔
      (getRoomParticipants s room.id).length * room.recommendations.length ≤
        (getRoomVotes (insertVoteStore s req) room.id).length) := by
  have h1 : getRoomByCode (insertVoteStore s req) req.roomCode = some room := h
  simp only [postVote, h1]
  split
  · next hc => simpa [Event.isCompletion] using hc
  · next hc => simpa [Event.isCompletion] using hc

/-- C4 witness: on the one-participant, one-candidate room the first vote
reaches the threshold and the completion broadcast fires. -/
theorem postVote_completion_iff_witness :
    getRoomByCode exStore "ROOMCODE" = some exRoom ∧
    (postVote exStore exReq).events.any Event.isCompletion = true :=
  ⟨rfl, (postVote_completion_iff exStore exReq exRoom rfl).mpr (by decide)⟩

/-- C10: once a room's vote count has already reached the
participants-times-candidates threshold, any further vote submission again
recomputes the results over all recorded votes, overwrites the room's
results and sets its status to `completed` once more, and broadcasts another
`voting-completed` — issued before the `vote-cast` broadcast of the
triggering vote. -/
theorem postVote_after_threshold (s : Store) (req : VoteRequest) (room : Room)
    (h : getRoomByCode s req.roomCode = some room)
    (hdone : (getRoomParticipants s room.id).length * room.recommendations.length ≤
      (getRoomVotes s room.id).length) :
    (postVote s req).events =
      [Event.votingCompleted room.code
        (calculateResults (getRoomVotes (insertVoteStore s req) room.id) room.recommendations),
       Event.voteCast room.code req.userId req.movieId req.score] ∧
    (postVote s req).store =
      updateRoomStatus
        (updateRoomResults (insertVoteStore s req) room.id
          (calculateResults (getRoomVotes (insertVoteStore s req) room.id) room.recommendations))
        room.id "completed" := by
  have h1 : getRoomByCode (insertVoteStore s req) req.roomCode = some room := h
  have hmono : (getRoomVotes s room.id).length ≤
      (getRoomVotes (insertVoteStore s req) room.id).length := by
    show (getRoomVotes s room.id).length ≤
      ((s.votes ++ [voteRecOf req]).filter (fun v => v.roomId == room.id)).length
    rw [List.filter_append, List.length_append]
    exact Nat.le_add_right _ _
  have hcond : (getRoomParticipants (insertVoteStore s req) room.id).length *
      room.recommendations.length ≤
      (getRoomVotes (insertVoteStore s req) room.id).length :=
    le_trans hdone hmono
  simp only [postVote, h1]
  rw [if_pos hcond]
  exact ⟨rfl, rfl⟩

/-- C10 witness: on the already-completed one-participant, one-candidate
room a further vote triggers a second completion broadcast, issued before
the vote-cast broadcast. -/
theorem postVote_after_threshold_witness :
    (postVote exStoreVoted exReq).events =
      [Event.votingCompleted "ROOMCODE"
        (calculateResults (getRoomVotes (insertVoteStore exStoreVoted exReq) 1) [⟨100⟩]),
       Event.voteCast "ROOMCODE" 10 100 2] :=
  (postVote_after_threshold exStoreVoted exReq exRoom (by decide) (by decide)).1

end Watchmaker
